import Mathlib

/-!
Verification of the move-classification and accuracy-scoring core of the
Checkmate.io repository (src/lib/chess/classification.ts and
src/lib/chess/analysis.ts, exported as the `analyse` pipeline).

Modelling conventions:
* JavaScript numbers that hold engine output (centipawns, mate distances) are
  modelled as rationals `ℚ`; quantities produced by the logistic
  win-probability curve are real numbers `ℝ` (the curve uses `10 ^ (-x/400)`,
  `Real.rpow`).
* `undefined`-able values are `Option`; JavaScript truthiness of strings is
  modelled explicitly (`strTruthy`); `x || 0` on a number is the identity for
  every number except that it sends `undefined` to `0`, which is `Option.getD 0`.
* The board library chess.js, the board-helper module (`getAttackers`,
  `isPieceHanging`, ...) and the openings data file are external collaborators
  of this core (they are not part of the analysed source); they are modelled as
  an explicit oracle record `ChessOracle` and an `openings` list parameter.
  All of the core's own control flow is embedded faithfully.
* The `boardCache` of analysis.ts is a pure performance cache keyed by FEN and
  has no effect on outputs; it is not modelled.
-/

namespace Checkmate

/-- The `Classification` enum of classification.ts. -/
inductive Classification where
  | brilliant
  | great
  | best
  | excellent
  | good
  | inaccuracy
  | mistake
  | blunder
  | miss
  | book
  | forced
deriving DecidableEq

/-- The `"cp" | "mate"` tag of an evaluation. -/
inductive EvalType where
  | cp
  | mate
deriving DecidableEq

/-- The `Evaluation` record of types/Position.ts: `value` is always
white-relative centipawns, `mateIn` an optional white-relative mate
distance. -/
structure Evaluation where
  type : EvalType
  value : ℚ
  mateIn : Option ℚ
deriving DecidableEq

/-- The `EngineLine` record of types/Position.ts. `evaluation` is `Option`
because analysis.ts defensively handles lines whose evaluation is missing at
runtime (malformed multi-PV data), and `moveSAN` is filled in late by the SAN
pass. -/
structure EngineLine where
  id : ℕ
  depth : ℕ
  evaluation : Option Evaluation
  moveUCI : String
  moveSAN : Option String
deriving DecidableEq

/-- The `Move` record of types/Position.ts. -/
structure Move where
  uci : String
  san : String
deriving DecidableEq

/-- The `EvaluatedPosition` record, together with the ad-hoc fields that
`analyse` attaches to it at runtime (`(position as any).bestAfterWhite` and
friends); those start out absent (`none`). -/
structure EvaluatedPosition where
  fen : String
  move : Move
  topLines : List EngineLine
  classification : Option Classification := none
  opening : Option String := none
  bestAfterWhite : Option ℚ := none
  playedAfterWhite : Option ℚ := none
  bestMateInWhite : Option ℚ := none
  playedMateInWhite : Option ℚ := none
  prevEvalWhite : Option ℚ := none
  prevMateInWhite : Option ℚ := none
  EPL : Option ℝ := none

/-- Character-list prefix test used to model substring search. -/
def startsWithChars : List Char → List Char → Bool
  | [], _ => true
  | _ :: _, [] => false
  | a :: as, b :: bs => a == b && startsWithChars as bs

/-- Character-list substring test used to model substring search. -/
def hasSubChars (needle : List Char) : List Char → Bool
  | [] => needle.isEmpty
  | c :: rest => startsWithChars needle (c :: rest) || hasSubChars needle rest

/-- JavaScript `haystack.includes(needle)` on strings. -/
def jsIncludes (haystack needle : String) : Bool :=
  hasSubChars needle.data haystack.data

/-- JavaScript truthiness of an optional string: `undefined` and `""` are
falsy, every other string is truthy. -/
def strTruthy : Option String → Bool
  | none => false
  | some s => !(s == "")

/-- Oracle for the external board library chess.js and for the board-helper
module used by the brilliancy detector. `legalMoveCount fen` is
`new Chess(fen).moves().length`; `isCheckmate`/`isCheck` are the chess.js
predicates; `sanOf fen uci` is the SAN of the move `uci` played on `fen`
(`none` when chess.js throws on an illegal move); `sacrificeViable lastFen fen
uci` abstracts the board-scanning sacrifice check of analysis.ts lines 516-627,
whose outcome is a function of board state only. -/
structure ChessOracle where
  legalMoveCount : String → ℕ
  isCheckmate : String → Bool
  isCheck : String → Bool
  sanOf : String → String → Option String
  sacrificeViable : String → String → String → Bool

/-- Model of `getMateWinProbability` of classification.ts: mate positions saturate at
0.999 (mover mates) or 0.001. -/
noncomputable def getMateWinProbability (mateIn : ℚ) : ℝ :=
  if 0 < mateIn then 0.999 else 0.001

/-- Model of `getWinningChance` of classification.ts: the logistic curve
`1 / (1 + 10 ^ (-cp / 400))`, short-circuited by the mate saturation when a
mate distance is supplied. -/
noncomputable def getWinningChance (centipawns : ℚ) (mateIn : Option ℚ) : ℝ :=
  match mateIn with
  | some m => getMateWinProbability m
  | none => 1 / (1 + (10 : ℝ) ^ ((-(centipawns : ℝ)) / 400))

/-- Model of `getCentipawns` of classification.ts, the inverse of the logistic curve;
the JavaScript `±Infinity` results are modelled as the `EReal` bottom/top. -/
noncomputable def getCentipawns (chance : ℝ) : EReal :=
  if chance ≤ 0 then ⊥
  else if 1 ≤ chance then ⊤
  else ((-400 * Real.logb 10 (1 / chance - 1) : ℝ) : EReal)

/-- Model of `getEPL` of classification.ts: expected points lost, the win-probability
gap between the best and the actually played move. -/
noncomputable def getEPL (bestPostCp actualPostCp : ℚ)
    (bestMateIn actualMateIn : Option ℚ) : ℝ :=
  getWinningChance bestPostCp bestMateIn - getWinningChance actualPostCp actualMateIn

/-- The tactical-best test of classification.ts lines 222-223: best at least
300 centipawns or a mate distance in (0, 5]. -/
def missBestTactical (bestPostEval : ℚ) (bestMateIn : Option ℚ) : Bool :=
  decide (300 ≤ bestPostEval) ||
    (match bestMateIn with
      | some m => decide (0 < m) && decide (m ≤ 5)
      | none => false)

/-- The tactical gap of classification.ts lines 231-241: mate distances
compared by `|bestMate - secondMate| * 100`, a saturated 500 when only the
best move mates, absolute centipawn difference otherwise. -/
def missTacticalGap (bestPostEval secondBestPostEval : ℚ)
    (bestMateIn secondBestMateIn : Option ℚ) : ℚ :=
  match bestMateIn, secondBestMateIn with
  | some bm, some sm => |bm - sm| * 100
  | some _, none => 500
  | none, _ => |bestPostEval - secondBestPostEval|

/-- The eval loss of classification.ts lines 249-259: mate distances compared
by `(bestMate - playedMate) * 100`, a saturated 500 when only the best move
mates, signed centipawn difference otherwise. -/
def missEvalLoss (bestPostEval playedPostEval : ℚ)
    (bestMateIn playedMateIn : Option ℚ) : ℚ :=
  match bestMateIn, playedMateIn with
  | some bm, some pm => (bm - pm) * 100
  | some _, none => 500
  | none, _ => bestPostEval - playedPostEval

/-- Model of `shouldBeMiss` of classification.ts, rule for rule: identical played/best
move ids, EPL below 0.10, a non-tactical best move, a tactical gap below 200 or
an eval loss below 150 each short-circuit to `false`. -/
noncomputable def shouldBeMiss (bestPostEval secondBestPostEval playedPostEval : ℚ)
    (bestMateIn secondBestMateIn playedMateIn : Option ℚ)
    (playedMoveUCI bestMoveUCI : Option String) : Bool :=
  if strTruthy playedMoveUCI && strTruthy bestMoveUCI && playedMoveUCI == bestMoveUCI then
    false
  else
    let epl := getEPL bestPostEval playedPostEval bestMateIn playedMateIn
    if epl < 0.10 then false
    else if !(missBestTactical bestPostEval bestMateIn) then false
    else if missTacticalGap bestPostEval secondBestPostEval bestMateIn secondBestMateIn < 200
      then false
    else decide (150 ≤ missEvalLoss bestPostEval playedPostEval bestMateIn playedMateIn)

/-- The tactical-gap proxy of the miss detector as the specification words it
(mate distances compared by `|bestMate - secondMate| * 100`, a saturated 500
when only the best move mates, centipawn gap otherwise). -/
def specTacticalGap (bestPostEval secondBestPostEval : ℚ)
    (bestMateIn secondBestMateIn : Option ℚ) : ℚ :=
  match bestMateIn, secondBestMateIn with
  | some bm, some sm => |bm - sm| * 100
  | some _, none => 500
  | none, _ => |bestPostEval - secondBestPostEval|

/-- The eval-loss proxy of the miss detector as the specification words it:
the same rule as `specTacticalGap` applied to (best, played); the mate-mate
branch carries the gap rule's absolute value, the centipawn branch is the
signed loss of the played move against the best move. -/
def specEvalLoss (bestPostEval playedPostEval : ℚ)
    (bestMateIn playedMateIn : Option ℚ) : ℚ :=
  match bestMateIn, playedMateIn with
  | some bm, some pm => |bm - pm| * 100
  | some _, none => 500
  | none, _ => bestPostEval - playedPostEval

/-- The synthesized evaluation of analysis.ts lines 350-358: when the current
position has no principal-variation evaluation it is a terminal position and a
zero evaluation is synthesized (`mate` when checkmate, `cp` otherwise). -/
def synthEvaluation (o : ChessOracle) (position : EvaluatedPosition) : Evaluation :=
  { type := if o.isCheckmate position.fen then EvalType.mate else EvalType.cp
    value := 0
    mateIn := none }

/-- The engine line pushed for a terminal position (analysis.ts lines 352-357). -/
def synthLine (o : ChessOracle) (position : EvaluatedPosition) : EngineLine :=
  { id := 1, depth := 0, evaluation := some (synthEvaluation o position), moveUCI := "", moveSAN := none }

/-- The EPL-tier ladder of analysis.ts lines 444-454. -/
noncomputable def tierClassification (EPL : ℝ) : Classification :=
  if EPL ≤ 0.02 then Classification.excellent
  else if EPL ≤ 0.05 then Classification.good
  else if EPL ≤ 0.10 then Classification.inaccuracy
  else if EPL ≤ 0.20 then Classification.mistake
  else Classification.blunder

/-- The base classification of analysis.ts lines 421-456: Best when the EPL is
at most 0.0001 or the played move is the engine's principal-variation move,
otherwise Miss when the miss detector fires, otherwise the EPL tier. -/
noncomputable def baseClassification (EPL : ℝ) (topMoveUCI moveUCI : String)
    (miss : Bool) : Classification :=
  if EPL ≤ 0.0001 ∨ topMoveUCI = moveUCI then Classification.best
  else if miss then Classification.miss
  else tierClassification EPL

/-- The Great-upgrade test of analysis.ts lines 460-492: only good move,
turning point, or punishing an opponent blunder with a significant gap. -/
noncomputable def checkGreat (secondBestAfterMover bestAfterMover playedAfterMover : ℚ)
    (playedMateInMover : Option ℚ) (prevEvalMover : ℚ) (prevMateInMover : Option ℚ)
    (lastClassification : Option Classification)
    (bestAfterWhite secondBestAfterWhite : ℚ) : Bool :=
  let prevWinProb := getWinningChance prevEvalMover prevMateInMover
  let onlyGoodMove := decide (secondBestAfterMover < -200) && decide (-100 ≤ bestAfterMover)
  let wasLosing := decide (prevWinProb ≤ 0.15)
  let nowEqual := decide (|playedAfterMover| ≤ 50) && playedMateInMover.isNone
  let wasEqual := decide (|prevEvalMover| ≤ 50) && prevMateInMover.isNone
  let nowWinning := decide (150 ≤ playedAfterMover) ||
    (match playedMateInMover with | some m => decide (0 < m) | none => false)
  let isTurningPoint := wasLosing && nowEqual || wasEqual && nowWinning || wasLosing && nowWinning
  let opponentBlundered := lastClassification == some Classification.blunder
  let significantGap := decide (200 ≤ |bestAfterWhite - secondBestAfterWhite|)
  onlyGoodMove || isTurningPoint || opponentBlundered && significantGap

/-- The "trivially winning anyway" exclusion of the brilliancy check
(analysis.ts lines 502-505). -/
def winningAnyways (bestMateInMover : Option ℚ)
    (bestAfterMover secondBestAfterMover : ℚ) : Bool :=
  (match bestMateInMover with | some bm => decide (0 < bm) | none => false)
      && decide (300 ≤ secondBestAfterMover)
    || (match bestMateInMover with | some _ => false | none => true)
      && decide (300 ≤ bestAfterMover) && decide (300 ≤ secondBestAfterMover)

/-- The two sequential blunder-demotion rules of analysis.ts lines 634-645:
a Blunder whose played mover-relative eval is still at least 600, or whose
best mover-relative eval was already at most -600, becomes Good. -/
def applyBlunderDemotions (c : Classification)
    (playedAfterMover bestAfterMover : ℚ) : Classification :=
  let c1 := if c = Classification.blunder ∧ 600 ≤ playedAfterMover
    then Classification.good else c
  if c1 = Classification.blunder ∧ bestAfterMover ≤ -600
    then Classification.good else c1

/-- One iteration of the classification loop of analysis.ts lines 301-647,
acting on the position entered by the analysed move (`position`), with
`lastPosition` the already-processed previous position. A missing
principal-variation line or evaluation on `lastPosition` makes the loop
`continue`, leaving `position` untouched. The `?? BOOK` fallback of line 647
acts on a classification that every path of lines 399-645 has already
assigned, so it never fires on this branch. -/
noncomputable def classifyStep (o : ChessOracle)
    (lastPosition position : EvaluatedPosition) : EvaluatedPosition :=
  match lastPosition.topLines.find? (fun line => line.id == 1) with
  | none => position
  | some topMove =>
    match topMove.evaluation with
    | none => position
    | some previousEvaluation =>
      let secondTopMove := lastPosition.topLines.find? (fun line => line.id == 2)
      let evaluation0 := (position.topLines.find? (fun line => line.id == 1)).bind (·.evaluation)
      let moveColorWhite := jsIncludes position.fen " b "
      let moverMultiplier : ℚ := if moveColorWhite then 1 else -1
      let prevMoverMultiplier : ℚ := -moverMultiplier
      let evaluation := evaluation0.getD (synthEvaluation o position)
      let topLines1 := if evaluation0.isSome then position.topLines
        else position.topLines ++ [synthLine o position]
      let bestAfterWhite := previousEvaluation.value
      let bestMateInWhite := previousEvaluation.mateIn
      let playedAfterWhite := evaluation.value
      let playedMateInWhite := evaluation.mateIn
      let bestAfterMover := bestAfterWhite * moverMultiplier
      let playedAfterMover := playedAfterWhite * moverMultiplier
      let bestMateInMover := bestMateInWhite.map (· * moverMultiplier)
      let playedMateInMover := playedMateInWhite.map (· * moverMultiplier)
      let WinProbBest := getWinningChance bestAfterMover bestMateInMover
      let WinProbPlayed := getWinningChance playedAfterMover playedMateInMover
      let EPL := WinProbBest - WinProbPlayed
      let stored := { position with
        topLines := topLines1
        bestAfterWhite := some bestAfterWhite
        playedAfterWhite := some playedAfterWhite
        bestMateInWhite := bestMateInWhite
        playedMateInWhite := playedMateInWhite
        prevEvalWhite := some previousEvaluation.value
        prevMateInWhite := previousEvaluation.mateIn
        EPL := some EPL }
      let legalMoves := o.legalMoveCount position.fen
      let newClassification :=
        if legalMoves ≤ 1 ∨ (secondTopMove.isNone ∧ legalMoves = 1) then
          Classification.forced
        else if (match secondTopMove with
            | some s => s.evaluation.isNone
            | none => false) then
          Classification.forced
        else
          let secondBestAfterWhite0 := ((secondTopMove.bind (·.evaluation)).map (·.value)).getD bestAfterWhite
          let secondBestAfterMover0 := secondBestAfterWhite0 * moverMultiplier
          let secondBestMateInWhite := secondTopMove.bind (fun s => s.evaluation.bind (·.mateIn))
          let secondBestMateInMover := secondBestMateInWhite.map (· * moverMultiplier)
          let base := baseClassification EPL topMove.moveUCI position.move.uci
            (shouldBeMiss bestAfterMover secondBestAfterMover0 playedAfterMover
              bestMateInMover secondBestMateInMover playedMateInMover
              (some position.move.uci) (some topMove.moveUCI))
          let secondBestAfterWhiteG := ((secondTopMove.bind (·.evaluation)).map (·.value)).getD 0
          let secondBestAfterMoverG := secondBestAfterWhiteG * moverMultiplier
          let prevEvalMover := previousEvaluation.value * prevMoverMultiplier
          let prevMateInMover := previousEvaluation.mateIn.map (· * prevMoverMultiplier)
          let afterGreat := if base = Classification.best ∧
              checkGreat secondBestAfterMoverG bestAfterMover playedAfterMover
                playedMateInMover prevEvalMover prevMateInMover
                lastPosition.classification bestAfterWhite secondBestAfterWhiteG = true
            then Classification.great else base
          let afterBrilliant := if afterGreat = Classification.best ∧
              0 ≤ playedAfterMover ∧
              winningAnyways bestMateInMover bestAfterMover secondBestAfterMoverG = false ∧
              jsIncludes position.move.san "=" = false ∧
              o.isCheck lastPosition.fen = false ∧
              o.sacrificeViable lastPosition.fen position.fen position.move.uci = true
            then Classification.brilliant else afterGreat
          applyBlunderDemotions afterBrilliant playedAfterMover bestAfterMover
      { stored with classification := some newClassification }

/-- The classification loop over `positions.slice(1)`, threading the
previously processed position (the loop reads `positions[positionIndex - 1]`
after it has itself been processed and mutated in place). -/
noncomputable def classifyList (o : ChessOracle) :
    EvaluatedPosition → List EvaluatedPosition → List EvaluatedPosition
  | _, [] => []
  | prev, p :: rest =>
    let p1 := classifyStep o prev p
    p1 :: classifyList o p1 rest

/-- The full first pass of analysis.ts: the initial position is skipped by
`positions.slice(1)` and never classified. -/
noncomputable def classifyPass (o : ChessOracle) :
    List EvaluatedPosition → List EvaluatedPosition
  | [] => []
  | h :: t => h :: classifyList o h t

/-- One entry of the openings data file (a FEN fragment plus a name). -/
structure OpeningEntry where
  fen : String
  name : String

/-- The opening lookup of analysis.ts lines 652-655:
`openings.find(opening => position.fen.includes(opening.fen))?.name`. -/
def lookupOpening (openings : List OpeningEntry) (fen : String) : Option String :=
  (openings.find? (fun o => jsIncludes fen o.fen)).map (·.name)

/-- The while-in-book condition of the overlay pass (analysis.ts line 669):
a truthy opening name and a stored EPL below 0.01. -/
noncomputable def bookCond (p : EvaluatedPosition) : Bool :=
  strTruthy p.opening && decide (p.EPL.getD 0 < (0.01 : ℝ))

/-- Relabelling a position as a book move. -/
def setBookLabel (p : EvaluatedPosition) : EvaluatedPosition :=
  { p with classification := some Classification.book }

/-- The body of the book-overlay loop of analysis.ts lines 660-674: overlay
Book while the condition holds; the first failing position trips `bookEnded`
and the following iteration breaks, leaving the whole rest untouched. -/
noncomputable def bookOverlayAux : List EvaluatedPosition → List EvaluatedPosition
  | [] => []
  | p :: rest =>
    if bookCond p then setBookLabel p :: bookOverlayAux rest
    else p :: rest

/-- The book-overlay pass; it iterates over `positions.slice(1)`. -/
noncomputable def bookOverlay : List EvaluatedPosition → List EvaluatedPosition
  | [] => []
  | h :: t => h :: bookOverlayAux t

/-- The SAN-generation pass of analysis.ts lines 678-694 for one engine line:
skipped for the zero-mate synthesized line, otherwise the oracle's SAN (the
catch-branch stores the empty string). -/
def sanPassLine (o : ChessOracle) (fen : String) (line : EngineLine) : EngineLine :=
  if (match line.evaluation with
      | some e => e.type == EvalType.mate && e.value == 0
      | none => true) then line
  else { line with moveSAN := some ((o.sanOf fen line.moveUCI).getD "") }

/-- The SAN-generation pass for one position. -/
def sanPass (o : ChessOracle) (p : EvaluatedPosition) : EvaluatedPosition :=
  { p with topLines := p.topLines.map (sanPassLine o p.fen) }

/-- The accumulator of the accuracy loop of analysis.ts lines 697-769. -/
structure AccState where
  whiteCurrent : ℝ
  whiteMaximum : ℝ
  blackCurrent : ℝ
  blackMaximum : ℝ
  whiteCounts : Classification → ℕ
  blackCounts : Classification → ℕ

/-- Whether a move contributes to accuracy (analysis.ts line 743): every move
not classified Book and not classified Forced. -/
def contributes (p : EvaluatedPosition) : Bool :=
  !(p.classification == some Classification.book)
    && !(p.classification == some Classification.forced)

/-- The per-move accuracy contribution of analysis.ts lines 744-762: leniency
0.7 when the prior position (mover-relative, opposite-ply multiplier) had win
probability at most 0.15, then `clamp(0, 100, 100 - EPL * 100 * leniency)`. -/
noncomputable def moveAccuracy (p : EvaluatedPosition) : ℝ :=
  let moveColorWhite := jsIncludes p.fen " b "
  let prevMoverMultiplier : ℚ := if moveColorWhite then -1 else 1
  let EPL := p.EPL.getD 0
  let prevEvalMover := (p.prevEvalWhite.getD 0) * prevMoverMultiplier
  let prevMateInMover := p.prevMateInWhite.map (· * prevMoverMultiplier)
  let prevWinProb := getWinningChance prevEvalMover prevMateInMover
  let leniencyFactor : ℝ := if prevWinProb ≤ 0.15 then 0.7 else 1.0
  max 0 (min 100 (100 - EPL * 100 * leniencyFactor))

/-- One iteration of the accuracy loop: accumulate the contribution for the
moving side when the move contributes, then tally its classification. -/
noncomputable def accStep (s : AccState) (p : EvaluatedPosition) : AccState :=
  let moveColorWhite := jsIncludes p.fen " b "
  let s1 := if contributes p then
      if moveColorWhite then
        { s with whiteCurrent := s.whiteCurrent + moveAccuracy p
                 whiteMaximum := s.whiteMaximum + 100 }
      else
        { s with blackCurrent := s.blackCurrent + moveAccuracy p
                 blackMaximum := s.blackMaximum + 100 }
    else s
  if moveColorWhite then
    { s1 with whiteCounts := fun c =>
        if p.classification = some c then s1.whiteCounts c + 1 else s1.whiteCounts c }
  else
    { s1 with blackCounts := fun c =>
        if p.classification = some c then s1.blackCounts c + 1 else s1.blackCounts c }

/-- The accuracy loop over `positions.slice(1)` starting from zeroes. -/
noncomputable def accuracyPass (ps : List EvaluatedPosition) : AccState :=
  (ps.drop 1).foldl accStep ⟨0, 0, 0, 0, fun _ => 0, fun _ => 0⟩

/-- The final per-side accuracy of analysis.ts lines 773-776:
`maximum > 0 ? current / maximum * 100 : 100`. -/
noncomputable def sideAccuracy (current maximum : ℝ) : ℝ :=
  if 0 < maximum then current / maximum * 100 else 100

/-- The report returned by `analyse`. -/
structure Report where
  whiteAccuracy : ℝ
  blackAccuracy : ℝ
  whiteCounts : Classification → ℕ
  blackCounts : Classification → ℕ
  positions : List EvaluatedPosition

/-- The `analyse` pipeline of analysis.ts: classification pass, opening
annotation, book overlay, SAN generation, then accuracy aggregation. -/
noncomputable def analyse (o : ChessOracle) (openings : List OpeningEntry)
    (positions : List EvaluatedPosition) : Report :=
  let classified := classifyPass o positions
  let withOpenings := classified.map fun p => { p with opening := lookupOpening openings p.fen }
  let booked := bookOverlay withOpenings
  let final := booked.map (sanPass o)
  let acc := accuracyPass final
  { whiteAccuracy := sideAccuracy acc.whiteCurrent acc.whiteMaximum
    blackAccuracy := sideAccuracy acc.blackCurrent acc.blackMaximum
    whiteCounts := acc.whiteCounts
    blackCounts := acc.blackCounts
    positions := final }

/-- A position sequence is fully evaluated when every position carries a
principal-variation line and every engine line carries an evaluation. -/
@[reducible] def FullyEvaluated (ps : List EvaluatedPosition) : Prop :=
  ∀ p ∈ ps, (∃ l ∈ p.topLines, l.id = 1) ∧ ∀ l ∈ p.topLines, l.evaluation.isSome = true

/-- A position that the classification loop can use as its `lastPosition`
without hitting a `continue`: a principal-variation line is found and carries
an evaluation. -/
def GoodPos (p : EvaluatedPosition) : Prop :=
  ∃ tm pe, p.topLines.find? (fun line => line.id == 1) = some tm ∧ tm.evaluation = some pe

/-! Concrete data used to evaluate the embedded code on sample inputs. -/

/-- Sample initial position for the book-overlay example. -/
def posB0 : EvaluatedPosition :=
  { fen := "b0 w 0", move := { uci := "", san := "" }, topLines := [] }

/-- Sample position failing the book condition (no opening name resolved). -/
def posBfail : EvaluatedPosition :=
  { fen := "b1 b 0", move := { uci := "a2a3", san := "a3" }, topLines := []
    classification := some Classification.inaccuracy, opening := none, EPL := some 1 }

/-- Sample later position that matches a named opening with a tiny EPL again
after the book run already ended. -/
def posBbook : EvaluatedPosition :=
  { fen := "b2 w 0", move := { uci := "a7a6", san := "a6" }, topLines := []
    classification := some Classification.best, opening := some "Ruy Lopez", EPL := some 0 }

/-- A board oracle for sample games: 30 legal moves everywhere, never check or
checkmate, no SAN conversion, sacrifices viable. -/
def oracleA : ChessOracle :=
  { legalMoveCount := fun _ => 30
    isCheckmate := fun _ => false
    isCheck := fun _ => false
    sanOf := fun _ _ => none
    sacrificeViable := fun _ _ _ => true }

/-- Sample white-relative evaluation of 80 centipawns. -/
def evalA : Evaluation := { type := EvalType.cp, value := 80, mateIn := none }

/-- Sample principal-variation line. -/
def lineA1 : EngineLine :=
  { id := 1, depth := 12, evaluation := some evalA, moveUCI := "e2e4", moveSAN := none }

/-- Sample second line. -/
def lineA2 : EngineLine :=
  { id := 2, depth := 12
    evaluation := some { type := EvalType.cp, value := 30, mateIn := none }
    moveUCI := "d2d4", moveSAN := none }

/-- Sample prior position. -/
def posA0 : EvaluatedPosition :=
  { fen := "8 w 0", move := { uci := "", san := "" }, topLines := [lineA1, lineA2] }

/-- Sample post-move position in which White was the mover (FEN shows Black to
move). -/
def posA1w : EvaluatedPosition :=
  { fen := "8 b 1", move := { uci := "e2e4", san := "e4" }
    topLines := [{ id := 1, depth := 12, evaluation := some evalA, moveUCI := "e7e5", moveSAN := none }] }

/-- Sample post-move position in which Black was the mover (FEN shows White to
move). -/
def posA1b : EvaluatedPosition :=
  { fen := "8 w 1", move := { uci := "e7e5", san := "e5" }
    topLines := [{ id := 1, depth := 12, evaluation := some evalA, moveUCI := "g1f3", moveSAN := none }] }

/-- Board oracle for the Forced example: the prior position has exactly one
legal move, every other position has thirty. -/
def oracleC1 : ChessOracle :=
  { legalMoveCount := fun fen => if fen == "c0 w 0" then 1 else 30
    isCheckmate := fun _ => false
    isCheck := fun _ => false
    sanOf := fun _ _ => none
    sacrificeViable := fun _ _ _ => false }

/-- Prior position of the Forced example: one legal move, a forced mate for
White on the principal variation and a mate against White on the second. -/
def posC0 : EvaluatedPosition :=
  { fen := "c0 w 0", move := { uci := "", san := "" }
    topLines :=
      [{ id := 1, depth := 15
         evaluation := some { type := EvalType.mate, value := 0, mateIn := some 2 }
         moveUCI := "a1a2", moveSAN := none },
       { id := 2, depth := 15
         evaluation := some { type := EvalType.cp, value := -300, mateIn := none }
         moveUCI := "a1b1", moveSAN := none }] }

/-- Post-move position of the Forced example: White played the second line and
is now mated in four; Black to move with thirty legal moves. -/
def posC1 : EvaluatedPosition :=
  { fen := "c1 b 0", move := { uci := "a1b1", san := "Kb1" }
    topLines :=
      [{ id := 1, depth := 15
         evaluation := some { type := EvalType.mate, value := 0, mateIn := some (-4) }
         moveUCI := "h8h1", moveSAN := none }] }

/-- Sample PV evaluation for the brilliancy example (an equal position). -/
def evD1 : Evaluation := { type := EvalType.cp, value := 0, mateIn := none }

/-- Sample PV line for the brilliancy example. -/
def lineD1 : EngineLine :=
  { id := 1, depth := 14, evaluation := some evD1, moveUCI := "e2e4", moveSAN := none }

/-- Prior position of the brilliancy example: equal best and second lines. -/
def posD0 : EvaluatedPosition :=
  { fen := "d0 w 0", move := { uci := "", san := "" }
    topLines :=
      [lineD1,
       { id := 2, depth := 14
         evaluation := some { type := EvalType.cp, value := 0, mateIn := none }
         moveUCI := "d2d4", moveSAN := none }] }

/-- Post-move position of the brilliancy example: White played the engine's
move, a non-promotion sacrifice, keeping a mild plus. -/
def posD1 : EvaluatedPosition :=
  { fen := "d1 b 0", move := { uci := "e2e4", san := "Bxf7" }
    topLines :=
      [{ id := 1, depth := 14
         evaluation := some { type := EvalType.cp, value := 100, mateIn := none }
         moveUCI := "e7e5", moveSAN := none }] }

/-- The per-move leniency factor as the specification words it: 0.7 when the
position immediately prior (mover-relative, using the opposite-ply
multiplier) had win probability at most 0.15, and 1.0 otherwise. -/
noncomputable def specLeniency (p : EvaluatedPosition) : ℝ :=
  if getWinningChance ((p.prevEvalWhite.getD 0) * (if jsIncludes p.fen " b " then -1 else 1))
      (p.prevMateInWhite.map (· * (if jsIncludes p.fen " b " then -1 else 1))) ≤ 0.15
  then 0.7 else 1.0

/-- The per-move accuracy contribution as the specification words it:
`clamp(0, 100, 100 - EPL * 100 * leniency)`. -/
noncomputable def specContribution (p : EvaluatedPosition) : ℝ :=
  max 0 (min 100 (100 - (p.EPL.getD 0) * 100 * specLeniency p))

/-- Sample initial position for the accuracy example. -/
def exM0 : EvaluatedPosition :=
  { fen := "m0 w 0", move := { uci := "", san := "" }, topLines := [] }

/-- Accuracy-example move with EPL 0. -/
def exM1 : EvaluatedPosition :=
  { fen := "m1 b 0", move := { uci := "", san := "" }, topLines := []
    classification := some Classification.best, EPL := some 0 }

/-- Accuracy-example move with EPL 0.03. -/
noncomputable def exM2 : EvaluatedPosition :=
  { fen := "m2 b 0", move := { uci := "", san := "" }, topLines := []
    classification := some Classification.good, EPL := some (3 / 100) }

/-- Accuracy-example move with EPL 0.12. -/
noncomputable def exM3 : EvaluatedPosition :=
  { fen := "m3 b 0", move := { uci := "", san := "" }, topLines := []
    classification := some Classification.mistake, EPL := some (12 / 100) }

/-- Accuracy-example move with EPL 0.25. -/
noncomputable def exM4 : EvaluatedPosition :=
  { fen := "m4 b 0", move := { uci := "", san := "" }, topLines := []
    classification := some Classification.blunder, EPL := some (25 / 100) }

/-- The accuracy-example game: four White moves with EPL values
0, 0.03, 0.12, 0.25 and no leniency triggers. -/
noncomputable def exList : List EvaluatedPosition := [exM0, exM1, exM2, exM3, exM4]

/-! Basic facts about the win-probability model. -/

theorem getWinningChance_matePos {c m : ℚ} (h : 0 < m) :
    getWinningChance c (some m) = 0.999 := by
  simp [getWinningChance, getMateWinProbability, h]

theorem getWinningChance_mateNonpos {c m : ℚ} (h : ¬ 0 < m) :
    getWinningChance c (some m) = 0.001 := by
  simp [getWinningChance, getMateWinProbability, h]

theorem rpowTerm_pos (c : ℚ) : 0 < (10 : ℝ) ^ ((-(c : ℝ)) / 400) :=
  Real.rpow_pos_of_pos (by norm_num) _

theorem getWinningChance_none_pos (c : ℚ) : 0 < getWinningChance c none := by
  have h := rpowTerm_pos c
  unfold getWinningChance
  positivity

theorem getWinningChance_none_lt_one (c : ℚ) : getWinningChance c none < 1 := by
  have h := rpowTerm_pos c
  unfold getWinningChance
  rw [div_lt_one (by linarith)]
  linarith

theorem getWinningChance_zero : getWinningChance 0 none = 0.5 := by
  unfold getWinningChance
  norm_num [Real.rpow_zero]

theorem getWinningChance_le_mono {x y : ℚ} (m : Option ℚ) (h : x ≤ y) :
    getWinningChance x m ≤ getWinningChance y m := by
  match m with
  | some m => exact le_refl _
  | none =>
    have hx : ((x : ℝ)) ≤ (y : ℝ) := by exact_mod_cast h
    have h1 : (10 : ℝ) ^ ((-(y : ℝ)) / 400) ≤ (10 : ℝ) ^ ((-(x : ℝ)) / 400) :=
      Real.rpow_le_rpow_of_exponent_le (by norm_num) (by linarith)
    have h2 : 0 < 1 + (10 : ℝ) ^ ((-(y : ℝ)) / 400) := by
      have := rpowTerm_pos y
      linarith
    exact one_div_le_one_div_of_le h2 (by linarith)

/-- C9: for every input, `winProbability` (the `getWinningChance` of
classification.ts) returns 0.999 for a positive supplied mate distance and
0.001 for a negative one, regardless of the centipawn value and of the mate
distance's magnitude, and computes the logistic curve
`1 / (1 + 10 ^ (-value / 400))` when no mate distance is supplied. -/
theorem winProbability_mate_saturation (c m : ℚ) :
    (0 < m → getWinningChance c (some m) = 0.999) ∧
    (m < 0 → getWinningChance c (some m) = 0.001) ∧
    getWinningChance c none = 1 / (1 + (10 : ℝ) ^ ((-(c : ℝ)) / 400)) := by
  refine ⟨fun h => getWinningChance_matePos h,
    fun h => getWinningChance_mateNonpos (by linarith), rfl⟩

/-- Witness for C9 at concrete inputs. -/
theorem winProbability_mate_saturation_witness :
    ((0 : ℚ) < 4 ∧ getWinningChance 123 (some 4) = 0.999) ∧
    ((-7 : ℚ) < 0 ∧ getWinningChance 123 (some (-7)) = 0.001) :=
  ⟨⟨by norm_num, (winProbability_mate_saturation 123 4).1 (by norm_num)⟩,
    ⟨by norm_num, (winProbability_mate_saturation 123 (-7)).2.1 (by norm_num)⟩⟩

/-- C10: `winProbability` is non-decreasing in its centipawn input for fixed
mate status, equals 0.5 at zero, and the inverse `getCentipawns` round-trips
it exactly (in the real-number model the floating tolerance is 0); the
inverse returns negative infinity at probabilities at most 0 and positive
infinity at probabilities at least 1. -/
theorem winProbability_monotone_roundtrip :
    (∀ (m : Option ℚ) (x y : ℚ), x ≤ y → getWinningChance x m ≤ getWinningChance y m) ∧
    getWinningChance 0 none = 0.5 ∧
    (∀ x : ℚ, getCentipawns (getWinningChance x none) = ((x : ℝ) : EReal)) ∧
    (∀ p : ℝ, p ≤ 0 → getCentipawns p = ⊥) ∧
    (∀ p : ℝ, 1 ≤ p → getCentipawns p = ⊤) := by
  refine ⟨fun m x y h => getWinningChance_le_mono m h, getWinningChance_zero,
    fun x => ?_, fun p hp => by simp [getCentipawns, hp],
    fun p hp => ?_⟩
  · have hp0 := getWinningChance_none_pos x
    have hp1 := getWinningChance_none_lt_one x
    have ht := rpowTerm_pos x
    rw [getCentipawns, if_neg (not_le.mpr hp0), if_neg (not_le.mpr hp1)]
    rw [EReal.coe_eq_coe_iff]
    have hrw : 1 / getWinningChance x none - 1 = (10 : ℝ) ^ ((-(x : ℝ)) / 400) := by
      unfold getWinningChance
      rw [one_div_one_div]
      ring
    rw [hrw, Real.logb_rpow (by norm_num) (by norm_num)]
    ring
  · have h0 : ¬ p ≤ 0 := by linarith
    rw [getCentipawns, if_neg h0, if_pos hp]

/-- Witness for C10 at concrete inputs. -/
theorem winProbability_monotone_roundtrip_witness :
    ((1 : ℚ) ≤ 2 ∧ getWinningChance 1 none ≤ getWinningChance 2 none) ∧
    ((-1 : ℝ) ≤ 0 ∧ getCentipawns (-1) = ⊥) ∧
    ((1 : ℝ) ≤ 2 ∧ getCentipawns 2 = ⊤) :=
  ⟨⟨by norm_num, winProbability_monotone_roundtrip.1 none 1 2 (by norm_num)⟩,
    ⟨by norm_num, winProbability_monotone_roundtrip.2.2.2.1 (-1) (by norm_num)⟩,
    ⟨by norm_num, winProbability_monotone_roundtrip.2.2.2.2 2 (by norm_num)⟩⟩

/-! Facts about the miss detector. -/

theorem epl_mate_signs {b p bm pm : ℚ}
    (h : (0.10 : ℝ) ≤ getEPL b p (some bm) (some pm)) : 0 < bm ∧ ¬ 0 < pm := by
  simp only [getEPL, getWinningChance, getMateWinProbability] at h
  by_cases hb : 0 < bm
  · by_cases hp : 0 < pm
    · exfalso; rw [if_pos hb, if_pos hp] at h; norm_num at h
    · exact ⟨hb, hp⟩
  · exfalso
    by_cases hp : 0 < pm
    · rw [if_neg hb, if_pos hp] at h; norm_num at h
    · rw [if_neg hb, if_neg hp] at h; norm_num at h

theorem ite_false_chain (c : Prop) [Decidable c] (b : Bool) :
    ((if c then false else b) = true) ↔ (¬ c ∧ b = true) := by
  by_cases h : c <;> simp [h]

theorem missBestTactical_iff (b : ℚ) (bm : Option ℚ) :
    missBestTactical b bm = true ↔ (300 ≤ b ∨ ∃ m, bm = some m ∧ 0 < m ∧ m ≤ 5) := by
  rcases bm with _ | m <;>
    simp [missBestTactical, Bool.or_eq_true, Bool.and_eq_true, decide_eq_true_eq]

theorem missTacticalGap_eq_spec (b s : ℚ) (bm sm : Option ℚ) :
    missTacticalGap b s bm sm = specTacticalGap b s bm sm := by
  rcases bm with _ | x <;> rcases sm with _ | y <;> rfl

theorem missEvalLoss_eq_spec {b p : ℚ} {bm pm : Option ℚ}
    (h : (0.10 : ℝ) ≤ getEPL b p bm pm) :
    missEvalLoss b p bm pm = specEvalLoss b p bm pm := by
  rcases bm with _ | x <;> rcases pm with _ | y <;> try rfl
  obtain ⟨h1, h2⟩ := epl_mate_signs h
  have hy : y ≤ 0 := le_of_not_lt h2
  simp only [missEvalLoss, specEvalLoss]
  rw [abs_of_pos (by linarith : (0 : ℚ) < x - y)]

/-- C2: the miss detector returns true exactly when the played move differs
from the best move, the expected-points loss is at least 0.10, the best move
is tactical (at least 300 centipawns or a positive mate distance at most 5),
the best/second-best gap under the mate/centipawn proxy is at least 200, and
the eval loss of played versus best under the same proxy rule is at least 150;
in particular a played move equal to the best move is never a miss. -/
theorem shouldBeMiss_iff (b s p : ℚ) (bm sm pm : Option ℚ) (pu bu : Option String) :
    shouldBeMiss b s p bm sm pm pu bu = true ↔
      (¬ (strTruthy pu = true ∧ strTruthy bu = true ∧ pu = bu) ∧
        (0.10 : ℝ) ≤ getEPL b p bm pm ∧
        (300 ≤ b ∨ ∃ m, bm = some m ∧ 0 < m ∧ m ≤ 5) ∧
        200 ≤ specTacticalGap b s bm sm ∧
        150 ≤ specEvalLoss b p bm pm) := by
  simp only [shouldBeMiss]
  rw [ite_false_chain, ite_false_chain, ite_false_chain, ite_false_chain]
  constructor
  · rintro ⟨h1, h2, h3, h4, h5⟩
    have h2' : (0.10 : ℝ) ≤ getEPL b p bm pm := not_lt.mp h2
    refine ⟨fun hc => h1 (by simp [hc.1, hc.2.1, hc.2.2]), h2', ?_, ?_, ?_⟩
    · exact (missBestTactical_iff b bm).mp (by simpa using h3)
    · rw [← missTacticalGap_eq_spec]; exact not_lt.mp h4
    · rw [← missEvalLoss_eq_spec h2']; exact of_decide_eq_true h5
  · rintro ⟨h1, h2, h3, h4, h5⟩
    have hmbt : missBestTactical b bm = true := (missBestTactical_iff b bm).mpr h3
    refine ⟨?_, not_lt.mpr h2, by simp [hmbt], ?_, ?_⟩
    · intro hb
      simp only [Bool.and_eq_true, beq_iff_eq] at hb
      exact h1 ⟨hb.1.1, hb.1.2, hb.2⟩
    · rw [missTacticalGap_eq_spec]; exact not_lt.mpr h4
    · exact decide_eq_true (by rw [missEvalLoss_eq_spec h2]; exact h5)

/-! Storage discipline of the classification step. -/

theorem getD_synth_value (o : ChessOracle) (p : EvaluatedPosition) (ov : Option Evaluation) :
    (ov.getD (synthEvaluation o p)).value = (ov.map (·.value)).getD 0 := by
  cases ov <;> rfl

theorem getD_synth_mateIn (o : ChessOracle) (p : EvaluatedPosition) (ov : Option Evaluation) :
    (ov.getD (synthEvaluation o p)).mateIn = ov.bind (·.mateIn) := by
  cases ov <;> rfl

theorem classifyStep_stored (o : ChessOracle) (lp p : EvaluatedPosition)
    (tm : EngineLine) (pe : Evaluation)
    (h1 : lp.topLines.find? (fun line => line.id == 1) = some tm)
    (h2 : tm.evaluation = some pe) :
    (classifyStep o lp p).bestAfterWhite = some pe.value ∧
    (classifyStep o lp p).bestMateInWhite = pe.mateIn ∧
    (classifyStep o lp p).prevEvalWhite = some pe.value ∧
    (classifyStep o lp p).prevMateInWhite = pe.mateIn ∧
    (classifyStep o lp p).playedAfterWhite =
      some ((((p.topLines.find? (fun line => line.id == 1)).bind (·.evaluation)).map (·.value)).getD 0) ∧
    (classifyStep o lp p).playedMateInWhite =
      ((p.topLines.find? (fun line => line.id == 1)).bind (·.evaluation)).bind (·.mateIn) ∧
    (classifyStep o lp p).topLines =
      (if ((p.topLines.find? (fun line => line.id == 1)).bind (·.evaluation)).isSome then p.topLines
       else p.topLines ++ [synthLine o p]) := by
  refine ⟨?_, ?_, ?_, ?_, ?_, ?_, ?_⟩ <;>
    simp only [classifyStep, h1, h2] <;>
    first
      | rfl
      | exact congrArg some (getD_synth_value o p _)
      | exact getD_synth_mateIn o p _

/-- C3: every evaluation and mate distance persisted on a position record by
the classification step is the white-relative engine value verbatim (no mover
multiplier is applied to anything stored; the only change to the engine lines
is the possible appended zero-valued synthesized line), and for a stable
position repeated at two plies with the opposite side to move each time, the
stored white-relative fields are identical, so they never flip sign. -/
theorem stored_evaluations_white_relative :
    (∀ (o : ChessOracle) (lp p : EvaluatedPosition) (tm : EngineLine) (pe : Evaluation),
      lp.topLines.find? (fun line => line.id == 1) = some tm →
      tm.evaluation = some pe →
      ((classifyStep o lp p).bestAfterWhite = some pe.value ∧
       (classifyStep o lp p).bestMateInWhite = pe.mateIn ∧
       (classifyStep o lp p).prevEvalWhite = some pe.value ∧
       (classifyStep o lp p).prevMateInWhite = pe.mateIn ∧
       (classifyStep o lp p).playedAfterWhite =
         some ((((p.topLines.find? (fun line => line.id == 1)).bind (·.evaluation)).map (·.value)).getD 0) ∧
       (classifyStep o lp p).playedMateInWhite =
         ((p.topLines.find? (fun line => line.id == 1)).bind (·.evaluation)).bind (·.mateIn) ∧
       (classifyStep o lp p).topLines =
         (if ((p.topLines.find? (fun line => line.id == 1)).bind (·.evaluation)).isSome then p.topLines
          else p.topLines ++ [synthLine o p]))) ∧
    (∀ (o₁ o₂ : ChessOracle) (lp₁ p₁ lp₂ p₂ : EvaluatedPosition)
        (tm₁ tm₂ : EngineLine) (pe₁ pe₂ : Evaluation),
      lp₁.topLines.find? (fun line => line.id == 1) = some tm₁ →
      tm₁.evaluation = some pe₁ →
      lp₂.topLines.find? (fun line => line.id == 1) = some tm₂ →
      tm₂.evaluation = some pe₂ →
      pe₁ = pe₂ →
      jsIncludes p₁.fen " b " = true →
      jsIncludes p₂.fen " b " = false →
      ((classifyStep o₁ lp₁ p₁).bestAfterWhite = (classifyStep o₂ lp₂ p₂).bestAfterWhite ∧
       (classifyStep o₁ lp₁ p₁).bestMateInWhite = (classifyStep o₂ lp₂ p₂).bestMateInWhite ∧
       (classifyStep o₁ lp₁ p₁).prevEvalWhite = (classifyStep o₂ lp₂ p₂).prevEvalWhite ∧
       (classifyStep o₁ lp₁ p₁).prevMateInWhite = (classifyStep o₂ lp₂ p₂).prevMateInWhite)) := by
  refine ⟨fun o lp p tm pe h1 h2 => classifyStep_stored o lp p tm pe h1 h2, ?_⟩
  intro o₁ o₂ lp₁ p₁ lp₂ p₂ tm₁ tm₂ pe₁ pe₂ h1 h2 h3 h4 heq hw hb
  obtain ⟨a1, a2, a3, a4, -, -, -⟩ := classifyStep_stored o₁ lp₁ p₁ tm₁ pe₁ h1 h2
  obtain ⟨b1, b2, b3, b4, -, -, -⟩ := classifyStep_stored o₂ lp₂ p₂ tm₂ pe₂ h3 h4
  subst heq
  exact ⟨a1.trans b1.symm, a2.trans b2.symm, a3.trans b3.symm, a4.trans b4.symm⟩

/-- Witness for C3: a sample prior position and the same 80-centipawn engine
evaluation seen once with White to move and once with Black to move; the
stored white-relative values coincide. -/
theorem stored_evaluations_white_relative_witness :
    (posA0.topLines.find? (fun line => line.id == 1) = some lineA1 ∧
      lineA1.evaluation = some evalA ∧
      jsIncludes posA1w.fen " b " = true ∧
      jsIncludes posA1b.fen " b " = false) ∧
    (classifyStep oracleA posA0 posA1w).bestAfterWhite = some evalA.value ∧
    (classifyStep oracleA posA0 posA1w).bestAfterWhite =
      (classifyStep oracleA posA0 posA1b).bestAfterWhite := by
  refine ⟨⟨rfl, rfl, rfl, rfl⟩, ?_, ?_⟩
  · exact (stored_evaluations_white_relative.1 oracleA posA0 posA1w lineA1 evalA rfl rfl).1
  · exact (stored_evaluations_white_relative.2 oracleA oracleA posA0 posA1w posA0 posA1b
      lineA1 lineA1 evalA evalA rfl rfl rfl rfl rfl rfl rfl).1

/-- C4: a classification that reached Blunder is demoted to Good when the
played mover-relative eval is still at least 600 or the best mover-relative
eval was already at most -600; concretely a Blunder-tier move with played
mover-relative eval 650 ends as Good, while one with played eval 550 (and a
best eval not already hopeless) remains Blunder. -/
theorem blunder_demotion :
    (∀ (c : Classification) (played best : ℚ),
      c = Classification.blunder → (600 ≤ played ∨ best ≤ -600) →
      applyBlunderDemotions c played best = Classification.good) ∧
    (∀ best : ℚ,
      applyBlunderDemotions Classification.blunder 650 best = Classification.good) ∧
    (∀ best : ℚ, ¬ best ≤ -600 →
      applyBlunderDemotions Classification.blunder 550 best = Classification.blunder) := by
  refine ⟨?_, ?_, ?_⟩
  · rintro c played best rfl (h | h)
    · simp [applyBlunderDemotions, h]
    · unfold applyBlunderDemotions
      by_cases hp : (600 : ℚ) ≤ played <;> simp [hp, h]
  · intro best
    simp [applyBlunderDemotions, show (600 : ℚ) ≤ 650 by norm_num]
  · intro best h
    simp [applyBlunderDemotions, show ¬ (600 : ℚ) ≤ 550 by norm_num, h]

/-- Witness for C4 at concrete inputs. -/
theorem blunder_demotion_witness :
    applyBlunderDemotions Classification.blunder 0 (-700) = Classification.good ∧
    applyBlunderDemotions Classification.blunder 650 0 = Classification.good ∧
    (¬ (0 : ℚ) ≤ -600) ∧
    applyBlunderDemotions Classification.blunder 550 0 = Classification.blunder :=
  ⟨blunder_demotion.1 Classification.blunder 0 (-700) rfl (Or.inr (by norm_num)),
    blunder_demotion.2.1 0,
    by norm_num,
    blunder_demotion.2.2 0 (by norm_num)⟩

/-! Structure of the book-overlay pass. -/

theorem bookOverlayAux_eq (l : List EvaluatedPosition) :
    bookOverlayAux l = (l.takeWhile bookCond).map setBookLabel ++ l.dropWhile bookCond := by
  induction l with
  | nil => rfl
  | cons p rest ih =>
    by_cases h : bookCond p = true
    · simp [bookOverlayAux, List.takeWhile_cons, List.dropWhile_cons, h, ih]
    · simp only [Bool.not_eq_true] at h
      simp [bookOverlayAux, List.takeWhile_cons, List.dropWhile_cons, h]

theorem takeWhile_length_le_of_fail {l : List EvaluatedPosition} {i : ℕ}
    {p : EvaluatedPosition} (hi : l[i]? = some p) (hp : bookCond p = false) :
    (l.takeWhile bookCond).length ≤ i := by
  induction l generalizing i with
  | nil => simp at hi
  | cons a t ih =>
    by_cases ha : bookCond a = true
    · cases i with
      | zero =>
        simp only [List.getElem?_cons_zero, Option.some.injEq] at hi
        rw [hi] at ha
        rw [ha] at hp
        cases hp
      | succ n =>
        simp only [List.takeWhile_cons, ha, if_true, List.length_cons]
        exact Nat.succ_le_succ (ih (by simpa using hi))
    · simp only [Bool.not_eq_true] at ha
      simp [List.takeWhile_cons, ha]

theorem overlay_no_resume {t : List EvaluatedPosition} {i j : ℕ}
    {p : EvaluatedPosition} (hij : i ≤ j) (hi : t[i]? = some p)
    (hp : bookCond p = false) : (bookOverlayAux t)[j]? = t[j]? := by
  rw [bookOverlayAux_eq]
  have h1 : (t.takeWhile bookCond).length ≤ i := takeWhile_length_le_of_fail hi hp
  have h2 : ((t.takeWhile bookCond).map setBookLabel).length ≤ j := by
    rw [List.length_map]; exact le_trans h1 hij
  rw [List.getElem?_append_right h2]
  conv_rhs => rw [show t = t.takeWhile bookCond ++ t.dropWhile bookCond from
    (List.takeWhile_append_dropWhile bookCond t).symm]
  rw [List.getElem?_append_right (by simpa using le_trans h1 hij)]
  rw [List.length_map]

/-- C5: the book-overlay pass relabels exactly the longest front run of
positions satisfying the book condition (resolvable opening name and EPL below
0.01) as Book, leaves everything from the first failing position on untouched,
and in particular never relabels a later position as Book once some earlier
position has failed the condition, even if it matches a named opening again. -/
theorem book_overlay_prefix_terminates :
    (bookOverlay [] = []) ∧
    (∀ (hd : EvaluatedPosition) (t : List EvaluatedPosition),
      bookOverlay (hd :: t) =
        hd :: ((t.takeWhile bookCond).map setBookLabel ++ t.dropWhile bookCond)) ∧
    (∀ (hd : EvaluatedPosition) (t : List EvaluatedPosition) (i j : ℕ)
        (p : EvaluatedPosition), i ≤ j → t[i]? = some p → bookCond p = false →
      (bookOverlay (hd :: t))[j + 1]? = t[j]?) := by
  refine ⟨rfl, fun hd t => ?_, fun hd t i j p hij hi hp => ?_⟩
  · rw [bookOverlay, bookOverlayAux_eq]
  · rw [bookOverlay]
    simpa using overlay_no_resume hij hi hp

/-- Witness for C5: the second move fails the book condition (no opening
name), so the third, which matches a named opening with EPL 0 again, is left
untouched by the overlay. -/
theorem book_overlay_prefix_terminates_witness :
    ((0 : ℕ) ≤ 1 ∧ [posBfail, posBbook][0]? = some posBfail ∧ bookCond posBfail = false) ∧
    (bookOverlay [posB0, posBfail, posBbook])[2]? = [posBfail, posBbook][1]? :=
  ⟨⟨by norm_num, rfl, rfl⟩,
    book_overlay_prefix_terminates.2.2 posB0 [posBfail, posBbook] 0 1 posBfail
      (by norm_num) rfl rfl⟩

/-! Structure of the accuracy loop. -/

theorem accStep_fields (s : AccState) (p : EvaluatedPosition) :
    (accStep s p).whiteCurrent = s.whiteCurrent +
      (if contributes p && jsIncludes p.fen " b " then moveAccuracy p else 0) ∧
    (accStep s p).whiteMaximum = s.whiteMaximum +
      (if contributes p && jsIncludes p.fen " b " then 100 else 0) ∧
    (accStep s p).blackCurrent = s.blackCurrent +
      (if contributes p && !(jsIncludes p.fen " b ") then moveAccuracy p else 0) ∧
    (accStep s p).blackMaximum = s.blackMaximum +
      (if contributes p && !(jsIncludes p.fen " b ") then 100 else 0) := by
  cases hc : contributes p <;> cases hw : jsIncludes p.fen " b " <;>
    simp [accStep, hc, hw]

theorem foldl_accStep (l : List EvaluatedPosition) (s : AccState) :
    (l.foldl accStep s).whiteCurrent = s.whiteCurrent +
      ((l.filter fun p => contributes p && jsIncludes p.fen " b ").map moveAccuracy).sum ∧
    (l.foldl accStep s).whiteMaximum = s.whiteMaximum +
      100 * (((l.filter fun p => contributes p && jsIncludes p.fen " b ").length : ℝ)) ∧
    (l.foldl accStep s).blackCurrent = s.blackCurrent +
      ((l.filter fun p => contributes p && !(jsIncludes p.fen " b ")).map moveAccuracy).sum ∧
    (l.foldl accStep s).blackMaximum = s.blackMaximum +
      100 * (((l.filter fun p => contributes p && !(jsIncludes p.fen " b ")).length : ℝ)) := by
  induction l generalizing s with
  | nil => simp
  | cons p rest ih =>
    obtain ⟨i1, i2, i3, i4⟩ := ih (accStep s p)
    obtain ⟨a1, a2, a3, a4⟩ := accStep_fields s p
    refine ⟨?_, ?_, ?_, ?_⟩
    · rw [List.foldl_cons, i1, a1]
      by_cases h : (contributes p && jsIncludes p.fen " b ") = true
      · simp only [List.filter_cons, h, if_true, List.map_cons, List.sum_cons]
        ring
      · simp only [List.filter_cons, h, if_false, Bool.false_eq_true]
        ring
    · rw [List.foldl_cons, i2, a2]
      by_cases h : (contributes p && jsIncludes p.fen " b ") = true
      · simp only [List.filter_cons, h, if_true, List.length_cons]
        push_cast
        ring
      · simp only [List.filter_cons, h, if_false, Bool.false_eq_true]
        ring
    · rw [List.foldl_cons, i3, a3]
      by_cases h : (contributes p && !(jsIncludes p.fen " b ")) = true
      · simp only [List.filter_cons, h, if_true, List.map_cons, List.sum_cons]
        ring
      · simp only [List.filter_cons, h, if_false, Bool.false_eq_true]
        ring
    · rw [List.foldl_cons, i4, a4]
      by_cases h : (contributes p && !(jsIncludes p.fen " b ")) = true
      · simp only [List.filter_cons, h, if_true, List.length_cons]
        push_cast
        ring
      · simp only [List.filter_cons, h, if_false, Bool.false_eq_true]
        ring

theorem analyse_accuracy (o : ChessOracle) (ops : List OpeningEntry)
    (ps : List EvaluatedPosition) :
    (analyse o ops ps).whiteAccuracy =
      (if (((analyse o ops ps).positions.drop 1).filter
            fun p => contributes p && jsIncludes p.fen " b ").length = 0 then (100 : ℝ)
       else ((((analyse o ops ps).positions.drop 1).filter
            fun p => contributes p && jsIncludes p.fen " b ").map moveAccuracy).sum
         / (100 * ((((analyse o ops ps).positions.drop 1).filter
            fun p => contributes p && jsIncludes p.fen " b ").length : ℝ)) * 100) ∧
    (analyse o ops ps).blackAccuracy =
      (if (((analyse o ops ps).positions.drop 1).filter
            fun p => contributes p && !(jsIncludes p.fen " b ")).length = 0 then (100 : ℝ)
       else ((((analyse o ops ps).positions.drop 1).filter
            fun p => contributes p && !(jsIncludes p.fen " b ")).map moveAccuracy).sum
         / (100 * ((((analyse o ops ps).positions.drop 1).filter
            fun p => contributes p && !(jsIncludes p.fen " b ")).length : ℝ)) * 100) := by
  obtain ⟨f1, f2, f3, f4⟩ := foldl_accStep ((analyse o ops ps).positions.drop 1)
    ⟨0, 0, 0, 0, fun _ => 0, fun _ => 0⟩
  constructor
  · rw [show (analyse o ops ps).whiteAccuracy = sideAccuracy
        ((accuracyPass (analyse o ops ps).positions).whiteCurrent)
        ((accuracyPass (analyse o ops ps).positions).whiteMaximum) from rfl]
    unfold accuracyPass
    rw [f1, f2, zero_add, zero_add]
    unfold sideAccuracy
    by_cases h0 : (((analyse o ops ps).positions.drop 1).filter
        fun p => contributes p && jsIncludes p.fen " b ").length = 0
    · rw [if_pos h0, h0]
      norm_num
    · have hpos : (0 : ℝ) < 100 * ((((analyse o ops ps).positions.drop 1).filter
          fun p => contributes p && jsIncludes p.fen " b ").length : ℝ) := by
        have h1 : 0 < (((analyse o ops ps).positions.drop 1).filter
            fun p => contributes p && jsIncludes p.fen " b ").length :=
          Nat.pos_of_ne_zero h0
        have h2 : (0 : ℝ) < ((((analyse o ops ps).positions.drop 1).filter
            fun p => contributes p && jsIncludes p.fen " b ").length : ℝ) := by
          exact_mod_cast h1
        linarith
      rw [if_pos hpos, if_neg h0]
  · rw [show (analyse o ops ps).blackAccuracy = sideAccuracy
        ((accuracyPass (analyse o ops ps).positions).blackCurrent)
        ((accuracyPass (analyse o ops ps).positions).blackMaximum) from rfl]
    unfold accuracyPass
    rw [f3, f4, zero_add, zero_add]
    unfold sideAccuracy
    by_cases h0 : (((analyse o ops ps).positions.drop 1).filter
        fun p => contributes p && !(jsIncludes p.fen " b ")).length = 0
    · rw [if_pos h0, h0]
      norm_num
    · have hpos : (0 : ℝ) < 100 * ((((analyse o ops ps).positions.drop 1).filter
          fun p => contributes p && !(jsIncludes p.fen " b ")).length : ℝ) := by
        have h1 : 0 < (((analyse o ops ps).positions.drop 1).filter
            fun p => contributes p && !(jsIncludes p.fen " b ")).length :=
          Nat.pos_of_ne_zero h0
        have h2 : (0 : ℝ) < ((((analyse o ops ps).positions.drop 1).filter
            fun p => contributes p && !(jsIncludes p.fen " b ")).length : ℝ) := by
          exact_mod_cast h1
        linarith
      rw [if_pos hpos, if_neg h0]

theorem moveAccuracy_no_leniency (p : EvaluatedPosition)
    (h1 : p.prevEvalWhite = none) (h2 : p.prevMateInWhite = none) :
    moveAccuracy p = max 0 (min 100 (100 - (p.EPL.getD 0) * 100)) := by
  simp only [moveAccuracy, h1, h2, Option.getD_none, Option.map_none', zero_mul,
    getWinningChance_zero]
  rw [if_neg (by norm_num : ¬ (0.5 : ℝ) ≤ 0.15)]
  norm_num

theorem moveAccuracy_exM1 : moveAccuracy exM1 = 100 := by
  rw [moveAccuracy_no_leniency exM1 rfl rfl]
  norm_num [exM1, max_def, min_def]

theorem moveAccuracy_exM2 : moveAccuracy exM2 = 97 := by
  rw [moveAccuracy_no_leniency exM2 rfl rfl]
  norm_num [exM2, max_def, min_def]

theorem moveAccuracy_exM3 : moveAccuracy exM3 = 88 := by
  rw [moveAccuracy_no_leniency exM3 rfl rfl]
  norm_num [exM3, max_def, min_def]

theorem moveAccuracy_exM4 : moveAccuracy exM4 = 75 := by
  rw [moveAccuracy_no_leniency exM4 rfl rfl]
  norm_num [exM4, max_def, min_def]

theorem analyse_example_ninety : (analyse oracleA [] exList).whiteAccuracy = 90 := by
  rw [(analyse_accuracy oracleA [] exList).1]
  rw [show ((analyse oracleA [] exList).positions.drop 1).filter
      (fun p => contributes p && jsIncludes p.fen " b ") = [exM1, exM2, exM3, exM4] from rfl]
  rw [if_neg (by simp : ¬ ([exM1, exM2, exM3, exM4].length = 0))]
  simp only [List.map_cons, List.map_nil, List.sum_cons, List.sum_nil, List.length_cons,
    List.length_nil, moveAccuracy_exM1, moveAccuracy_exM2, moveAccuracy_exM3, moveAccuracy_exM4]
  norm_num

/-- C6: for each move not classified Book or Forced, the accuracy contribution
is `clamp(0, 100, 100 - EPL * 100 * leniency)` with leniency 0.7 exactly when
the prior position's mover-relative win probability (opposite-ply multiplier)
was at most 0.15; each side's accuracy is the sum of its contributions divided
by 100 times the number of contributing moves, times 100, and is 100 for a
side with no contributing moves; four contributing moves with EPL values 0,
0.03, 0.12, 0.25 and no leniency triggers yield contributions 100, 97, 88, 75
and an accuracy of 90. -/
theorem accuracy_aggregation :
    (∀ p : EvaluatedPosition, moveAccuracy p = specContribution p) ∧
    (∀ (o : ChessOracle) (ops : List OpeningEntry) (ps : List EvaluatedPosition),
      (analyse o ops ps).whiteAccuracy =
        (if (((analyse o ops ps).positions.drop 1).filter
              fun p => contributes p && jsIncludes p.fen " b ").length = 0 then (100 : ℝ)
         else ((((analyse o ops ps).positions.drop 1).filter
              fun p => contributes p && jsIncludes p.fen " b ").map moveAccuracy).sum
           / (100 * ((((analyse o ops ps).positions.drop 1).filter
              fun p => contributes p && jsIncludes p.fen " b ").length : ℝ)) * 100) ∧
      (analyse o ops ps).blackAccuracy =
        (if (((analyse o ops ps).positions.drop 1).filter
              fun p => contributes p && !(jsIncludes p.fen " b ")).length = 0 then (100 : ℝ)
         else ((((analyse o ops ps).positions.drop 1).filter
              fun p => contributes p && !(jsIncludes p.fen " b ")).map moveAccuracy).sum
           / (100 * ((((analyse o ops ps).positions.drop 1).filter
              fun p => contributes p && !(jsIncludes p.fen " b ")).length : ℝ)) * 100)) ∧
    (moveAccuracy exM1 = 100 ∧ moveAccuracy exM2 = 97 ∧
     moveAccuracy exM3 = 88 ∧ moveAccuracy exM4 = 75 ∧
     (analyse oracleA [] exList).whiteAccuracy = 90) :=
  ⟨fun _ => rfl, fun o ops ps => analyse_accuracy o ops ps,
    moveAccuracy_exM1, moveAccuracy_exM2, moveAccuracy_exM3, moveAccuracy_exM4,
    analyse_example_ninety⟩

/-! Every analysed move of a fully evaluated game is classified. -/

theorem classifyStep_isSome (o : ChessOracle) {lp : EvaluatedPosition}
    (p : EvaluatedPosition) (h : GoodPos lp) :
    (classifyStep o lp p).classification.isSome = true := by
  obtain ⟨tm, pe, h1, h2⟩ := h
  simp [classifyStep, h1, h2]

theorem classifyStep_topLines_of_good (o : ChessOracle) (lp p : EvaluatedPosition)
    (hp : ((p.topLines.find? (fun line => line.id == 1)).bind (·.evaluation)).isSome = true) :
    (classifyStep o lp p).topLines = p.topLines := by
  cases hfind : lp.topLines.find? (fun line => line.id == 1) with
  | none => simp [classifyStep, hfind]
  | some tm2 =>
    cases heval : tm2.evaluation with
    | none => simp [classifyStep, hfind, heval]
    | some pe2 => simp [classifyStep, hfind, heval, hp]

theorem classifyStep_good (o : ChessOracle) (lp : EvaluatedPosition)
    {p : EvaluatedPosition} (h : GoodPos p) : GoodPos (classifyStep o lp p) := by
  obtain ⟨tm, pe, h1, h2⟩ := h
  have hp : ((p.topLines.find? (fun line => line.id == 1)).bind (·.evaluation)).isSome = true := by
    rw [h1]
    simp [h2]
  exact ⟨tm, pe, by rw [classifyStep_topLines_of_good o lp p hp, h1], h2⟩

theorem classifyList_all_some (o : ChessOracle) (t : List EvaluatedPosition) :
    ∀ prev : EvaluatedPosition, GoodPos prev → (∀ p ∈ t, GoodPos p) →
      ∀ q ∈ classifyList o prev t, q.classification.isSome = true := by
  induction t with
  | nil =>
    intro prev _ _ q hq
    simp [classifyList] at hq
  | cons p rest ih =>
    intro prev hprev hall q hq
    simp only [classifyList] at hq
    rcases List.mem_cons.mp hq with h | h
    · subst h
      exact classifyStep_isSome o p hprev
    · exact ih (classifyStep o prev p)
        (classifyStep_good o prev (hall p (by simp)))
        (fun r hr => hall r (by simp [hr])) q h

theorem bookOverlayAux_isSome : ∀ {l : List EvaluatedPosition},
    (∀ p ∈ l, p.classification.isSome = true) →
    ∀ q ∈ bookOverlayAux l, q.classification.isSome = true := by
  intro l
  induction l with
  | nil =>
    intro _ q hq
    simp [bookOverlayAux] at hq
  | cons a rest ih =>
    intro h q hq
    simp only [bookOverlayAux] at hq
    by_cases hb : bookCond a = true
    · rw [if_pos hb] at hq
      rcases List.mem_cons.mp hq with h1 | h1
      · subst h1; rfl
      · exact ih (fun r hr => h r (by simp [hr])) q h1
    · rw [if_neg hb] at hq
      rcases List.mem_cons.mp hq with h1 | h1
      · subst h1; exact h q (by simp)
      · exact h q (by simp [h1])

theorem mem_of_index_some {α : Type} :
    ∀ {l : List α} {i : ℕ} {a : α}, l[i]? = some a → a ∈ l
  | b :: t, 0, a, h => by
    simp only [List.getElem?_cons_zero, Option.some.injEq] at h
    simp [h]
  | b :: t, i + 1, a, h => by
    rw [List.getElem?_cons_succ] at h
    exact List.mem_cons_of_mem b (mem_of_index_some h)
  | [], _, _, h => by simp at h

theorem good_of_fullyEvaluated {ps : List EvaluatedPosition} (hfe : FullyEvaluated ps)
    {p : EvaluatedPosition} (hp : p ∈ ps) : GoodPos p := by
  obtain ⟨⟨l, hl, hid⟩, hall⟩ := hfe p hp
  have hsome : (p.topLines.find? (fun line => line.id == 1)).isSome = true := by
    rw [List.find?_isSome]
    exact ⟨l, hl, by simp [hid]⟩
  obtain ⟨tm, htm⟩ := Option.isSome_iff_exists.mp hsome
  obtain ⟨pe, hpe⟩ := Option.isSome_iff_exists.mp (hall tm (List.mem_of_find?_eq_some htm))
  exact ⟨tm, pe, htm, hpe⟩

/-- C7 (amended): after `analyse` completes on a fully evaluated position
sequence, every position after the first carries exactly one classification
label; the initial position, which no analysed move enters, is the one
position the pipeline leaves unclassified. -/
theorem fully_evaluated_tail_classified (o : ChessOracle) (ops : List OpeningEntry)
    (ps : List EvaluatedPosition) (hfe : FullyEvaluated ps) (i : ℕ)
    (p : EvaluatedPosition) (hi : 1 ≤ i)
    (hp : ((analyse o ops ps).positions)[i]? = some p) :
    p.classification.isSome = true := by
  match ps with
  | [] =>
    have : ((analyse o ops [] : Report)).positions = [] := rfl
    rw [this] at hp
    simp at hp
  | h :: t =>
    have hpos : (analyse o ops (h :: t)).positions =
        sanPass o { h with opening := lookupOpening ops h.fen } ::
          (bookOverlayAux ((classifyList o h t).map
            (fun q => { q with opening := lookupOpening ops q.fen }))).map (sanPass o) := rfl
    rw [hpos] at hp
    obtain ⟨j, rfl⟩ : ∃ j, i = j + 1 := ⟨i - 1, by omega⟩
    rw [List.getElem?_cons_succ] at hp
    have hmem := mem_of_index_some hp
    obtain ⟨r, hr, rfl⟩ := List.mem_map.mp hmem
    have hsome : r.classification.isSome = true := by
      refine bookOverlayAux_isSome ?_ r hr
      intro q hq
      obtain ⟨w, hw, rfl⟩ := List.mem_map.mp hq
      have := classifyList_all_some o t h
        (good_of_fullyEvaluated hfe (by simp))
        (fun x hx => good_of_fullyEvaluated hfe (by simp [hx])) w hw
      exact this
    exact hsome

/-- Counterexample for C7 as stated: a fully evaluated two-position sequence
whose initial position leaves `analyse` with no classification at all. -/
theorem initial_position_left_unclassified :
    FullyEvaluated [posA0, posA1w] ∧
    ((analyse oracleA [] [posA0, posA1w]).positions.map (·.classification))[0]? =
      some none := by
  exact ⟨by decide, rfl⟩

/-- Witness for the amended C7 on a concrete fully evaluated game. -/
theorem fully_evaluated_tail_classified_witness :
    FullyEvaluated [posA0, posA1w] ∧ (1 : ℕ) ≤ 1 ∧
    (((analyse oracleA [] [posA0, posA1w]).positions)[1]?.map
      (fun p => p.classification.isSome)) = some true := by
  refine ⟨by decide, le_refl 1, ?_⟩
  have hs : (((analyse oracleA [] [posA0, posA1w]).positions)[1]?).isSome = true := rfl
  obtain ⟨p, hp⟩ := Option.isSome_iff_exists.mp hs
  rw [hp, Option.map_some']
  exact congrArg some
    (fully_evaluated_tail_classified oracleA [] [posA0, posA1w] (by decide) 1 p
      (le_refl 1) hp)

/-- C1: the classification step's Forced rule counts the legal moves of the
post-move position (the board built from `position.fen`), not of the prior
position; with the prior position having exactly one legal move and both
engine lines present, while the post-move position has thirty legal moves, the
move is classified Miss rather than Forced. -/
theorem forced_check_uses_post_move_position :
    oracleC1.legalMoveCount posC0.fen = 1 ∧
    oracleC1.legalMoveCount posC1.fen = 30 ∧
    (classifyStep oracleC1 posC0 posC1).classification = some Classification.miss := by
  refine ⟨rfl, rfl, ?_⟩
  have e1 : getWinningChance (0 : ℚ) (some (2 : ℚ)) = 0.999 :=
    getWinningChance_matePos (by norm_num)
  have e2 : getWinningChance (0 : ℚ) (some (-4 : ℚ)) = 0.001 :=
    getWinningChance_mateNonpos (by norm_num)
  have b12 : ((1 : ℕ) == 2) = false := rfl
  have b22 : ((2 : ℕ) == 2) = true := rfl
  have b11 : ((1 : ℕ) == 1) = true := rfl
  norm_num +decide [classifyStep, posC0, posC1, oracleC1, List.find?, baseClassification,
    shouldBeMiss, getEPL, missBestTactical, missTacticalGap, missEvalLoss,
    applyBlunderDemotions, e1, e2, b11, b12, b22, Option.bind, Option.getD, Option.map_some']

/-! Preconditions of the Brilliant upgrade. -/

theorem ite_eq_cases {c : Prop} [Decidable c] {α : Sort _} {a b x : α}
    (h : (if c then a else b) = x) : (c ∧ a = x) ∨ (¬ c ∧ b = x) := by
  by_cases hc : c
  · exact Or.inl ⟨hc, by rwa [if_pos hc] at h⟩
  · exact Or.inr ⟨hc, by rwa [if_neg hc] at h⟩

theorem applyBlunderDemotions_eq_brilliant (c : Classification) (p b : ℚ) :
    applyBlunderDemotions c p b = Classification.brilliant ↔ c = Classification.brilliant := by
  unfold applyBlunderDemotions
  by_cases hc : c = Classification.blunder
  · subst hc
    by_cases hp : (600 : ℚ) ≤ p <;> by_cases hb : b ≤ -600 <;> simp [hp, hb]
  · simp [hc]

theorem baseClassification_ne_brilliant (E : ℝ) (u1 u2 : String) (m : Bool) :
    baseClassification E u1 u2 m ≠ Classification.brilliant := by
  unfold baseClassification tierClassification
  intro h
  split at h
  · cases h
  · split at h
    · cases h
    · split at h
      · cases h
      · split at h
        · cases h
        · split at h
          · cases h
          · split at h
            · cases h
            · cases h

/-- C8: a move is classified Brilliant only when all of the following hold:
its base classification was Best and the Great upgrade did not fire, the
played mover-relative evaluation is at least 0, the position is not already
trivially winning (`winningAnyways` is false), the move is not a pawn
promotion (its SAN has no equal sign), the mover was not in check before
moving, and the board-level sacrifice scan confirmed the sacrifice. -/
theorem brilliant_requires_preconditions (o : ChessOracle) (lp p : EvaluatedPosition)
    (tm : EngineLine) (pe : Evaluation) (mult : ℚ)
    (h1 : lp.topLines.find? (fun line => line.id == 1) = some tm)
    (h2 : tm.evaluation = some pe)
    (hm : (if jsIncludes p.fen " b " = true then (1 : ℚ) else -1) = mult)
    (hb : (classifyStep o lp p).classification = some Classification.brilliant) :
    (let bestAfterMover := pe.value * mult
     let played := (((p.topLines.find? (fun line => line.id == 1)).bind (·.evaluation)).getD
       (synthEvaluation o p))
     let playedAfterMover := played.value * mult
     let playedMateInMover := played.mateIn.map (· * mult)
     let secondTop := lp.topLines.find? (fun line => line.id == 2)
     let secondG := ((secondTop.bind (·.evaluation)).map (·.value)).getD 0
     let bestMateInMover := pe.mateIn.map (· * mult)
     o.isCheck lp.fen = false ∧
     jsIncludes p.move.san "=" = false ∧
     0 ≤ playedAfterMover ∧
     winningAnyways bestMateInMover bestAfterMover (secondG * mult) = false ∧
     baseClassification
         (getWinningChance bestAfterMover bestMateInMover -
           getWinningChance playedAfterMover playedMateInMover)
         tm.moveUCI p.move.uci
         (shouldBeMiss bestAfterMover
           (((secondTop.bind (·.evaluation)).map (·.value)).getD pe.value * mult)
           playedAfterMover bestMateInMover
           ((secondTop.bind (fun s => s.evaluation.bind (·.mateIn))).map (· * mult))
           playedMateInMover (some p.move.uci) (some tm.moveUCI)) = Classification.best ∧
     checkGreat (secondG * mult) bestAfterMover playedAfterMover playedMateInMover
         (pe.value * -mult) (pe.mateIn.map (· * -mult)) lp.classification pe.value secondG
       = false ∧
     o.sacrificeViable lp.fen p.fen p.move.uci = true) := by
  simp only [classifyStep, h1, h2, Option.some.injEq] at hb
  rw [hm] at hb
  rcases ite_eq_cases hb with ⟨-, hfe⟩ | ⟨-, hb⟩
  · cases hfe
  rcases ite_eq_cases hb with ⟨-, hfe⟩ | ⟨-, hb⟩
  · cases hfe
  rw [applyBlunderDemotions_eq_brilliant] at hb
  rcases ite_eq_cases hb with ⟨hC, -⟩ | ⟨-, hb⟩
  · obtain ⟨hAG, hPlayed, hWA, hSan, hCheck, hViable⟩ := hC
    rcases ite_eq_cases hAG with ⟨hB, hgt⟩ | ⟨hB, hbase⟩
    · cases hgt
    · exact ⟨hCheck, hSan, hPlayed, hWA, hbase,
        Bool.eq_false_iff.mpr (fun hcg => hB ⟨hbase, hcg⟩), hViable⟩
  · rcases ite_eq_cases hb with ⟨-, hgt⟩ | ⟨-, hbase⟩
    · cases hgt
    · exact absurd hbase (baseClassification_ne_brilliant _ _ _ _)

/-- Witness for C8: a concrete non-promotion sacrifice out of check, played as
the engine's own move in an equal position, is classified Brilliant and
satisfies the preconditions. -/
theorem brilliant_requires_preconditions_witness :
    (classifyStep oracleA posD0 posD1).classification = some Classification.brilliant ∧
    oracleA.isCheck posD0.fen = false ∧
    jsIncludes posD1.move.san "=" = false ∧
    oracleA.sacrificeViable posD0.fen posD1.fen posD1.move.uci = true := by
  have e3 : getWinningChance (0 : ℚ) none = 0.5 := getWinningChance_zero
  have g1 : decide ((0.5 : ℝ) ≤ 0.15) = false := decide_eq_false (by norm_num)
  have b11 : ((1 : ℕ) == 1) = true := rfl
  have b12 : ((1 : ℕ) == 2) = false := rfl
  have b22 : ((2 : ℕ) == 2) = true := rfl
  have b0 : ((none : Option Classification) == some Classification.blunder) = false := rfl
  have hb : (classifyStep oracleA posD0 posD1).classification =
      some Classification.brilliant := by
    norm_num +decide [classifyStep, posD0, posD1, oracleA, lineD1, evD1, List.find?,
      baseClassification, checkGreat, winningAnyways, applyBlunderDemotions,
      b11, b12, b22, b0, e3, g1, Option.bind, Option.getD, Option.map_some']
  have h := brilliant_requires_preconditions oracleA posD0 posD1 lineD1 evD1 1 rfl rfl rfl hb
  exact ⟨hb, h.1, h.2.1, h.2.2.2.2.2.2⟩

end Checkmate
